import Mathlib

/-!
Verification development for the streaming response core of the gpt-load
reverse proxy: the SSE stream interpreter, the retry controller, the
Gemini done-token stripping, the resume-body builders and the
system-instruction reshaper, embedded shallowly from the Go source.

JSON values decoded by encoding/json into map[string]interface{} are
modelled by the inductive type Json below; Go type assertions such as
v.(string), v.([]interface{}), v.(map[string]interface{}) are modelled by
the partial projections asStr, asArr, asObj, and map indexing by jlookup
over an association list.
-/

inductive Json where
  | null : Json
  | bool : Bool → Json
  | num : Int → Json
  | str : String → Json
  | arr : List Json → Json
  | obj : List (String × Json) → Json

/-- Go map indexing m[k]: the value of the first binding of k, if any. -/
def jlookup (m : List (String × Json)) (k : String) : Option Json :=
  match m with
  | [] => none
  | (k0, v) :: rest => if k0 = k then some v else jlookup rest k

/-- Go map assignment m[k] = v: replace the binding in place, else append. -/
def setKey (m : List (String × Json)) (k : String) (v : Json) : List (String × Json) :=
  match m with
  | [] => [(k, v)]
  | (k0, v0) :: rest => if k0 = k then (k, v) :: rest else (k0, v0) :: setKey rest k v

/-- Go delete(m, k). -/
def eraseKey (m : List (String × Json)) (k : String) : List (String × Json) :=
  match m with
  | [] => []
  | (k0, v0) :: rest => if k0 = k then eraseKey rest k else (k0, v0) :: eraseKey rest k

/-- Go type assertion v.(map[string]interface\x7b\x7d). -/
def Json.asObj : Json → Option (List (String × Json))
  | .obj o => some o
  | _ => none

/-- Go type assertion v.([]interface\x7b\x7d). -/
def Json.asArr : Json → Option (List Json)
  | .arr xs => some xs
  | _ => none

/-- Go type assertion v.(string). -/
def Json.asStr : Json → Option String
  | .str s => some s
  | _ => none

/-- Go strings.Contains(s, sub), character-level. -/
def goContains (s sub : String) : Bool :=
  s.toList.tails.any (fun t => sub.toList.isPrefixOf t)

/-- Go strings.HasSuffix(s, suffix), character-level. -/
def goHasSuffix (s suffix : String) : Bool :=
  suffix.toList.isSuffixOf s.toList

/-- Drop the last n characters of s. -/
def goDropRight (s : String) (n : Nat) : String :=
  String.mk (s.toList.take (s.toList.length - n))

/-- Go strings.TrimSpace(s): drop whitespace from both ends. -/
def goTrimSpace (s : String) : String :=
  String.mk
    (((s.toList.dropWhile Char.isWhitespace).reverse.dropWhile Char.isWhitespace).reverse)

/-- The UTF-8 byte width of a character. -/
def charUtf8Size (c : Char) : Nat :=
  if c.toNat < 128 then 1
  else if c.toNat < 2048 then 2
  else if c.toNat < 65536 then 3
  else 4

/-- Go len(s): the byte length of the string. -/
def goByteLen (s : String) : Nat :=
  s.toList.foldl (fun n c => n + charUtf8Size c) 0

/-- The StreamHandler fields (streaming/handler source). -/
structure StreamHandler where
  maxRetries : Int
  retryDelay : Int
  enablePunctuationHeuristic : Bool
  doneTokenPatterns : List String

/-- The StreamConfig fields (streaming/handler source). -/
structure StreamConfig where
  MaxRetries : Int
  RetryDelay : Int
  EnablePunctuationHeuristic : Bool
  DoneTokenPatterns : List String

def defaultDoneTokenPatterns : List String := ["[done]", "[DONE]", "done", "DONE"]

/-- time.Second in nanoseconds. -/
def oneSecondNs : Int := 1000000000

/-- NewStreamHandler: defaults for non-positive or empty config fields. -/
def NewStreamHandler (config : StreamConfig) : StreamHandler :=
  let mr := if config.MaxRetries ≤ 0 then 3 else config.MaxRetries
  let rd := if config.RetryDelay ≤ 0 then oneSecondNs else config.RetryDelay
  let dp := if config.DoneTokenPatterns = [] then defaultDoneTokenPatterns
            else config.DoneTokenPatterns
  { maxRetries := mr, retryDelay := rd,
    enablePunctuationHeuristic := config.EnablePunctuationHeuristic,
    doneTokenPatterns := dp }

/-- CreateProcessor (factory source): the per-channel StreamConfig. -/
def createProcessorConfig (channelType : String) : StreamConfig :=
  if channelType = "gemini" then
    { MaxRetries := 5, RetryDelay := oneSecondNs,
      EnablePunctuationHeuristic := true, DoneTokenPatterns := defaultDoneTokenPatterns }
  else if channelType = "openai" then
    { MaxRetries := 2, RetryDelay := oneSecondNs,
      EnablePunctuationHeuristic := false, DoneTokenPatterns := [] }
  else if channelType = "anthropic" then
    { MaxRetries := 2, RetryDelay := oneSecondNs,
      EnablePunctuationHeuristic := false, DoneTokenPatterns := [] }
  else
    { MaxRetries := 3, RetryDelay := oneSecondNs,
      EnablePunctuationHeuristic := true, DoneTokenPatterns := defaultDoneTokenPatterns }

/-- extractOpenAIText: choices[0].delta.content as string, else empty. -/
def extractOpenAIText (data : Json) : String :=
  match data with
  | .obj o =>
    match jlookup o "choices" with
    | some (.arr (c0 :: _)) =>
      match c0 with
      | .obj c0o =>
        match jlookup c0o "delta" with
        | some (.obj d) =>
          match jlookup d "content" with
          | some (.str s) => s
          | _ => ""
        | _ => ""
      | _ => ""
    | _ => ""
  | _ => ""

/-- extractGeminiText: candidates[0].content.parts[0].text as string, else empty. -/
def extractGeminiText (data : Json) : String :=
  match data with
  | .obj o =>
    match jlookup o "candidates" with
    | some (.arr (c0 :: _)) =>
      match c0 with
      | .obj c0o =>
        match jlookup c0o "content" with
        | some (.obj conto) =>
          match jlookup conto "parts" with
          | some (.arr (p0 :: _)) =>
            match p0 with
            | .obj p0o =>
              match jlookup p0o "text" with
              | some (.str s) => s
              | _ => ""
            | _ => ""
          | _ => ""
        | _ => ""
      | _ => ""
    | _ => ""
  | _ => ""

/-- extractAnthropicText: delta.text when type is content_block_delta. -/
def extractAnthropicText (data : Json) : String :=
  match data with
  | .obj o =>
    match jlookup o "type" with
    | some (.str t) =>
      if t = "content_block_delta" then
        match jlookup o "delta" with
        | some (.obj d) =>
          match jlookup d "text" with
          | some (.str s) => s
          | _ => ""
        | _ => ""
      else ""
    | _ => ""
  | _ => ""

/-- extractGenericText: first of text, content. -/
def extractGenericText (data : Json) : String :=
  match data with
  | .obj o =>
    match jlookup o "text" with
    | some (.str s) => s
    | _ =>
      match jlookup o "content" with
      | some (.str s) => s
      | _ => ""
  | _ => ""

/-- extractTextFromData: dispatch on channel type. -/
def extractTextFromData (data : Json) (channelType : String) : String :=
  if channelType = "openai" then extractOpenAIText data
  else if channelType = "gemini" then extractGeminiText data
  else if channelType = "anthropic" then extractAnthropicText data
  else extractGenericText data

/-- The sentence punctuation constant, exactly the runes of the source literal. -/
def sentencePunctuations : List Char :=
  ['。', '？', '！', '.', '!', '?', '…', '"', '\'', '"', '\'']

/-- endsWithSentencePunctuation: trim, then test the last rune. -/
def endsWithSentencePunctuation (text : String) : Bool :=
  let trimmed := goTrimSpace text
  match trimmed.toList.getLast? with
  | none => false
  | some c => sentencePunctuations.contains c

/-- isContentComplete: empty text never; Gemini first checks done-token
substrings and otherwise falls through to the generic punctuation and
length check, which uses the byte length as Go len does. -/
def isContentComplete (sh : StreamHandler) (text : String) (channelType : String) : Bool :=
  if text = "" then false
  else if channelType = "gemini" &&
       sh.doneTokenPatterns.any (fun p => goContains text p) then true
  else endsWithSentencePunctuation text && decide (goByteLen text > 50)

/-- RemoveDoneTokensFromText: strip the first matching pattern suffix once,
then trim whitespace on both sides as strings.TrimSpace does. -/
def RemoveDoneTokensFromText (patterns : List String) (text : String) : String :=
  match patterns.find? (fun p => goHasSuffix text p) with
  | some p => goTrimSpace (goDropRight text p.toList.length)
  | none => text

/-- isOpenAIComplete: choices[0].finish_reason is stop or length. -/
def isOpenAIComplete (data : Json) : Bool :=
  match data with
  | .obj o =>
    match jlookup o "choices" with
    | some (.arr (c0 :: _)) =>
      match c0 with
      | .obj c0o =>
        match jlookup c0o "finish_reason" with
        | some (.str fr) => fr = "stop" || fr = "length"
        | _ => false
      | _ => false
    | _ => false
  | _ => false

/-- isGeminiComplete: a done-token substring of the accumulated text, or
metadata.finishReason equal to STOP. -/
def isGeminiComplete (sh : StreamHandler) (data : Json) (accumulatedText : String) : Bool :=
  if sh.doneTokenPatterns.any (fun p => goContains accumulatedText p) then true
  else
    match data with
    | .obj o =>
      match jlookup o "metadata" with
      | some (.obj m) =>
        match jlookup m "finishReason" with
        | some (.str fr) => fr = "STOP"
        | _ => false
      | _ => false
    | _ => false

/-- isAnthropicComplete: frame type is message_stop. -/
def isAnthropicComplete (data : Json) : Bool :=
  match data with
  | .obj o =>
    match jlookup o "type" with
    | some (.str t) => t = "message_stop"
    | _ => false
  | _ => false

/-- isGenericComplete: done-token substring, or top level finish_reason. -/
def isGenericComplete (sh : StreamHandler) (data : Json) (accumulatedText : String) : Bool :=
  if sh.doneTokenPatterns.any (fun p => goContains accumulatedText p) then true
  else
    match data with
    | .obj o =>
      match jlookup o "finish_reason" with
      | some (.str fr) => fr = "stop" || fr = "length"
      | _ => false
    | _ => false

/-- isStreamComplete: dispatch on channel type. -/
def isStreamComplete (sh : StreamHandler) (data : Json) (channelType : String)
    (accumulatedText : String) : Bool :=
  if channelType = "openai" then isOpenAIComplete data
  else if channelType = "gemini" then isGeminiComplete sh data accumulatedText
  else if channelType = "anthropic" then isAnthropicComplete data
  else isGenericComplete sh data accumulatedText

/-- The in-place rewrite of candidates[0].content.parts[0].text performed
by removeDoneTokensFromLine when the stripped text differs; every failed
type assertion leaves the frame unchanged. -/
def updateGeminiText (data : Json) (cleanText : String) : Json :=
  match data with
  | .obj o =>
    match jlookup o "candidates" with
    | some (.arr (c0 :: cs)) =>
      match c0 with
      | .obj c0o =>
        match jlookup c0o "content" with
        | some (.obj conto) =>
          match jlookup conto "parts" with
          | some (.arr (p0 :: ps)) =>
            match p0 with
            | .obj p0o =>
              .obj (setKey o "candidates" (.arr (
                .obj (setKey c0o "content" (.obj (setKey conto "parts" (.arr (
                  .obj (setKey p0o "text" (.str cleanText)) :: ps))))) :: cs)))
            | _ => data
          | _ => data
        | _ => data
      | _ => data
    | _ => data
  | _ => data

/-- removeDoneTokensFromLine at the level of an already parsed data frame:
extract the Gemini text, strip trailing done-tokens, and rewrite the frame
when the text changed. The source re-parses the raw line; for a line whose
payload parsed to this frame that re-parse yields the same frame. -/
def removeDoneLine (sh : StreamHandler) (data : Json) : Json :=
  let text := extractGeminiText data
  if text = "" then data
  else
    let cleanText := RemoveDoneTokensFromText sh.doneTokenPatterns text
    if cleanText ≠ text then updateGeminiText data cleanText else data

/-- An SSE line as the interpreter classifies it: blank, the literal
OpenAI data [DONE] line, a data line whose payload JSON-decodes to an
object, a data line whose payload fails to decode (its raw text kept),
or a non-data line. -/
inductive SSELine where
  | blank : SSELine
  | dataDone : SSELine
  | dataObj : Json → SSELine
  | dataBad : String → SSELine
  | other : String → SSELine

/-- An observable output action on the downstream writer. -/
inductive OutEvent where
  | setHeaders : OutEvent
  | writeData : Json → OutEvent
  | writeRaw : String → OutEvent
  | writeStatus : Nat → String → Json → OutEvent

/-- The state produced by the scan loop of one attempt. -/
structure LoopOut where
  events : List OutEvent
  chunks : List String
  acc : String
  lastChunk : String
  earlyExit : Bool

/-- The scan loop of processStreamAttempt: classify each line, extract and
accumulate text, forward frames (Gemini frames through the done-token
stripper), and stop early on the [DONE] literal or a terminal frame. -/
def runLines (sh : StreamHandler) (channelType : String) :
    List SSELine → String → String → LoopOut
  | [], acc, lastChunk =>
    { events := [], chunks := [], acc := acc, lastChunk := lastChunk, earlyExit := false }
  | .blank :: rest, acc, lastChunk => runLines sh channelType rest acc lastChunk
  | .dataDone :: _, acc, lastChunk =>
    { events := [], chunks := [], acc := acc, lastChunk := lastChunk, earlyExit := true }
  | .dataBad _ :: rest, acc, lastChunk => runLines sh channelType rest acc lastChunk
  | .other s :: rest, acc, lastChunk =>
    let r := runLines sh channelType rest acc lastChunk
    { r with events := .writeRaw s :: r.events }
  | .dataObj data :: rest, acc, lastChunk =>
    let textChunk := extractTextFromData data channelType
    let acc' := if textChunk = "" then acc else acc ++ textChunk
    let lastChunk' := if textChunk = "" then lastChunk else textChunk
    let newChunks := if textChunk = "" then [] else [textChunk]
    let outFrame := if channelType = "gemini" then removeDoneLine sh data else data
    if isStreamComplete sh data channelType acc' then
      { events := [.writeData outFrame], chunks := newChunks,
        acc := acc', lastChunk := lastChunk', earlyExit := true }
    else
      let r := runLines sh channelType rest acc' lastChunk'
      { r with events := .writeData outFrame :: r.events, chunks := newChunks ++ r.chunks }

/-- The result of one stream attempt. -/
structure AttemptResult where
  events : List OutEvent
  chunks : List String
  cleanExit : Bool
  acc : String
  streak : Nat

/-- The end-of-attempt decision of processStreamAttempt: the clean-exit
flag and the updated resume punctuation streak. An early in-loop exit and
a scanner error both leave the streak untouched; on plain end of stream
the punctuation heuristic and the content analysis run in order. -/
def attemptExit (sh : StreamHandler) (channelType : String) (r : LoopOut)
    (scanErr : Bool) (streak : Nat) (attempt : Nat) : Bool × Nat :=
  if r.earlyExit then (true, streak)
  else if scanErr then (false, streak)
  else if sh.enablePunctuationHeuristic && decide (attempt > 0) &&
      endsWithSentencePunctuation r.lastChunk then
    let streak' := streak + 1
    if streak' ≥ 3 then (true, streak')
    else if isContentComplete sh r.acc channelType then (true, streak')
    else (false, streak')
  else if isContentComplete sh r.acc channelType then (true, 0)
  else (false, 0)

/-- processStreamAttempt: set the SSE headers, run the scan loop, and on
end of stream apply the scanner-error and heuristic completion rules. -/
def processStreamAttempt (sh : StreamHandler) (channelType : String)
    (lines : List SSELine) (scanErr : Bool) (acc : String) (streak : Nat)
    (attempt : Nat) : AttemptResult :=
  let r := runLines sh channelType lines acc ""
  let ex := attemptExit sh channelType r scanErr streak attempt
  { events := .setHeaders :: r.events, chunks := r.chunks,
    cleanExit := ex.1, acc := r.acc, streak := ex.2 }

/-- The JSON envelope written by writeRetryError; the message interpolates
the configured maxRetries. -/
def retryErrorBody (n : Int) : Json :=
  .obj [("error", .obj [
    ("code", .num 504),
    ("status", .str "DEADLINE_EXCEEDED"),
    ("message", .str ("Retry limit (" ++ toString n ++ ") exceeded after stream interruption"))])]

/-- How a streaming session ended. -/
inductive Outcome where
  | ok : Outcome
  | retryLimitExceeded : Outcome
  | retryRequestFailed : Outcome

/-- The observable result of a whole streaming session. -/
structure SessionResult where
  events : List OutEvent
  chunks : List String
  acc : String
  attempts : Nat
  counts : List Nat
  outcome : Outcome

/-- The loop of HandleStreamingResponse: run the current attempt, exit on
clean completion, write the 504 envelope when the retry budget is spent,
otherwise move to the next upstream response. Each upstream response is a
list of SSE lines paired with a scanner-error flag; running out of
responses models a failing retryRequestFunc. -/
def sessionLoop (sh : StreamHandler) (channelType : String) :
    List (List SSELine × Bool) → List SSELine × Bool → String → Nat → Nat → SessionResult
  | rest, cur, acc, streak, count =>
    let r := processStreamAttempt sh channelType cur.1 cur.2 acc streak count
    if r.cleanExit then
      { events := r.events, chunks := r.chunks, acc := r.acc,
        attempts := 1, counts := [count], outcome := .ok }
    else if (count : Int) ≥ sh.maxRetries then
      { events := r.events ++ [.writeStatus 504 "application/json" (retryErrorBody sh.maxRetries)],
        chunks := r.chunks, acc := r.acc,
        attempts := 1, counts := [count], outcome := .retryLimitExceeded }
    else
      match rest with
      | [] =>
        { events := r.events, chunks := r.chunks, acc := r.acc,
          attempts := 1, counts := [count], outcome := .retryRequestFailed }
      | next :: rest' =>
        let s := sessionLoop sh channelType rest' next r.acc r.streak (count + 1)
        { events := r.events ++ s.events, chunks := r.chunks ++ s.chunks, acc := s.acc,
          attempts := 1 + s.attempts, counts := count :: s.counts, outcome := s.outcome }

/-- HandleStreamingResponse: the retry controller, started on the first
upstream response with empty accumulated text, zero streak and zero
consecutive retry count. -/
def HandleStreamingResponse (sh : StreamHandler) (channelType : String)
    (first : List SSELine × Bool) (rest : List (List SSELine × Bool)) : SessionResult :=
  sessionLoop sh channelType rest first "" 0 0

/-- Concatenation of a list of strings. -/
def strConcat : List String → String
  | [] => ""
  | s :: rest => s ++ strConcat rest

/-- The concatenation of the text of every data frame written downstream,
as the client would extract it. -/
def emittedText (channelType : String) (events : List OutEvent) : String :=
  strConcat (events.map (fun e =>
    match e with
    | .writeData j => extractTextFromData j channelType
    | _ => ""))

/-- The text fields of the data frames written downstream, in order. -/
def frameTexts (events : List OutEvent) : List String :=
  events.filterMap (fun e =>
    match e with
    | .writeData j => some (extractGeminiText j)
    | _ => none)

/-- Is a contents entry an object whose role field is the string user. -/
def isUserEntry (j : Json) : Bool :=
  match j with
  | .obj o =>
    match jlookup o "role" with
    | some (.str r) => r = "user"
    | _ => false
  | _ => false

/-- The index of the last entry whose role is user, as the source finds it
by scanning from the end and stopping at the first hit. -/
def lastUserIdx : List Json → Option Nat
  | [] => none
  | x :: rest =>
    match lastUserIdx rest with
    | some j => some (j + 1)
    | none => if isUserEntry x then some 0 else none

def continuePromptText : String :=
  "Continue exactly where you left off without any preamble or repetition. Remember to include [done] at the end."

/-- The model entry injected by addGeminiRetryContext. -/
def geminiModelEntry (accumulatedText : String) : Json :=
  .obj [("role", .str "model"), ("parts", .arr [.obj [("text", .str accumulatedText)]])]

/-- The continuation user entry injected by addGeminiRetryContext. -/
def geminiContinueEntry : Json :=
  .obj [("role", .str "user"), ("parts", .arr [.obj [("text", .str continuePromptText)]])]

/-- addGeminiRetryContext: insert the model and continuation entries right
after the last user entry of contents, or append both when none exists;
bodies without a contents array are returned unchanged. -/
def addGeminiRetryContext (body : List (String × Json)) (accumulatedText : String) :
    List (String × Json) :=
  match jlookup body "contents" with
  | some (.arr contents) =>
    let contextMessages := [geminiModelEntry accumulatedText, geminiContinueEntry]
    match lastUserIdx contents with
    | some i =>
      setKey body "contents"
        (.arr (contents.take (i + 1) ++ contextMessages ++ contents.drop (i + 1)))
    | none => setKey body "contents" (.arr (contents ++ contextMessages))
  | _ => body

/-- addOpenAIRetryContext: prepend a system message to messages. -/
def addOpenAIRetryContext (body : List (String × Json)) (accumulatedText : String) :
    List (String × Json) :=
  match jlookup body "messages" with
  | some (.arr messages) =>
    let systemMessage : Json := .obj [("role", .str "system"),
      ("content", .str ("Continue from where you left off. Previous response: "
        ++ accumulatedText
        ++ "\n\nContinue generating the response without repetition."))]
    setKey body "messages" (.arr (systemMessage :: messages))
  | _ => body

/-- addAnthropicRetryContext: append a continuation user message. -/
def addAnthropicRetryContext (body : List (String × Json)) (accumulatedText : String) :
    List (String × Json) :=
  match jlookup body "messages" with
  | some (.arr messages) =>
    let contextMessage : Json := .obj [("role", .str "user"),
      ("content", .str ("Continue from where you left off. Previous response: "
        ++ accumulatedText ++ "\n\nContinue without repetition."))]
    setKey body "messages" (.arr (messages ++ [contextMessage]))
  | _ => body

/-- addGenericRetryContext: same continuation message as anthropic. -/
def addGenericRetryContext (body : List (String × Json)) (accumulatedText : String) :
    List (String × Json) :=
  match jlookup body "messages" with
  | some (.arr messages) =>
    let contextMessage : Json := .obj [("role", .str "user"),
      ("content", .str ("Continue from where you left off. Previous response: "
        ++ accumulatedText ++ "\n\nContinue without repetition."))]
    setKey body "messages" (.arr (messages ++ [contextMessage]))
  | _ => body

/-- buildRetryRequestBody: copy the original fields and dispatch on the
channel type. Copying a Go map is the identity on the modelled object. -/
def buildRetryRequestBody (originalBody : List (String × Json)) (accumulatedText : String)
    (channelType : String) : List (String × Json) :=
  if channelType = "openai" then addOpenAIRetryContext originalBody accumulatedText
  else if channelType = "gemini" then addGeminiRetryContext originalBody accumulatedText
  else if channelType = "anthropic" then addAnthropicRetryContext originalBody accumulatedText
  else addGenericRetryContext originalBody accumulatedText

def systemPromptMarkerText : String :=
  "IMPORTANT: At the very end of your entire response, you must write the token [done] to signal completion. This is a mandatory technical requirement."

/-- The marker part appended by injectSystemPrompt. -/
def newSystemPromptPart : Json := .obj [("text", .str systemPromptMarkerText)]

/-- The parts array of a value when it is an object carrying one; the
empty list otherwise, as the chained Go type assertions yield. -/
def partsOf (j : Json) : List Json :=
  match j with
  | .obj o =>
    match jlookup o "parts" with
    | some (.arr ps) => ps
    | _ => []
  | _ => []

/-- The camelCase map the merge phase starts from: the systemInstruction
object of the body, or the empty map when the field is absent or not an
object, as the Go type assertion with nil check yields. -/
def camelMapOf (body : List (String × Json)) : List (String × Json) :=
  match jlookup body "systemInstruction" with
  | some v => (v.asObj).getD []
  | none => []

/-- The parts array of a map, or the empty array when missing or not an
array, as the Go type assertion with nil check yields. -/
def partsOfMap (m : List (String × Json)) : List Json :=
  match jlookup m "parts" with
  | some (.arr ps) => ps
  | _ => []

/-- The merged parts: when the snake_case value is an object with a parts
array, those parts are prepended to the camelCase parts. -/
def snakeMergedParts (snakeVal : Json) (camelParts : List Json) : List Json :=
  match snakeVal with
  | .obj snakeMap =>
    match jlookup snakeMap "parts" with
    | some (.arr snakeParts) => snakeParts ++ camelParts
    | _ => camelParts
  | _ => camelParts

/-- The first phase of injectSystemPrompt (gemini channel source): when
snake_case system_instruction is present, merge its parts in front of the
camelCase systemInstruction parts, store the merged object under the
camelCase key and delete the snake_case key; otherwise leave the body
unchanged. -/
def mergeSnakeInstruction (body : List (String × Json)) : List (String × Json) :=
  match jlookup body "system_instruction" with
  | some snakeVal =>
    eraseKey
      (setKey body "systemInstruction"
        (.obj (setKey (camelMapOf body) "parts"
          (.arr (snakeMergedParts snakeVal (partsOfMap (camelMapOf body)))))))
      "system_instruction"
  | none => body

/-- The second phase of injectSystemPrompt: ensure systemInstruction is
an object with a parts array and append the marker part; a missing, null
or ill-shaped field is replaced wholesale. -/
def appendMarkerInstruction (body1 : List (String × Json)) : List (String × Json) :=
  match jlookup body1 "systemInstruction" with
  | none => setKey body1 "systemInstruction" (.obj [("parts", .arr [newSystemPromptPart])])
  | some .null => setKey body1 "systemInstruction" (.obj [("parts", .arr [newSystemPromptPart])])
  | some v =>
    match v with
    | .obj instruction =>
      match jlookup instruction "parts" with
      | some (.arr parts) =>
        setKey body1 "systemInstruction"
          (.obj (setKey instruction "parts" (.arr (parts ++ [newSystemPromptPart]))))
      | _ =>
        setKey body1 "systemInstruction"
          (.obj (setKey instruction "parts" (.arr [newSystemPromptPart])))
    | _ => setKey body1 "systemInstruction" (.obj [("parts", .arr [newSystemPromptPart])])

/-- injectSystemPrompt (gemini channel source): merge snake_case
system_instruction into camelCase systemInstruction by prepending its
parts and deleting the snake key, then ensure systemInstruction.parts
exists and append the marker part. -/
def injectSystemPrompt (body : List (String × Json)) : List (String × Json) :=
  appendMarkerInstruction (mergeSnakeInstruction body)

/-- The parts that the camelCase systemInstruction of a body contributes
to the merge: its parts array when present and well-shaped, else none. -/
def camelPartsOf (body : List (String × Json)) : List Json :=
  match jlookup body "systemInstruction" with
  | some v => partsOf v
  | none => []

/-- The Gemini handler built by the factory, used in concrete runs. -/
def gH : StreamHandler := NewStreamHandler (createProcessorConfig "gemini")

/-- A minimal Gemini data frame carrying one text part. -/
def geminiFrame (t : String) : Json :=
  .obj [("candidates", .arr [.obj [("content",
    .obj [("parts", .arr [.obj [("text", .str t)]])])]])]

/-- The transformation a text chunk undergoes between extraction and the
frame forwarded downstream: Gemini frames are done-token stripped, all
other channels forward the frame unchanged. -/
def stripIf (sh : StreamHandler) (channelType : String) (t : String) : String :=
  if channelType = "gemini" then RemoveDoneTokensFromText sh.doneTokenPatterns t else t

/-- Recognizes the header-setting output action. -/
def isSetHeadersB : OutEvent → Bool
  | .setHeaders => true
  | _ => false

/-- A session with one Gemini attempt whose single frame carries a
trailing done token. -/
def c1demo : SessionResult :=
  HandleStreamingResponse gH "gemini" ([.dataObj (geminiFrame "hi [done]")], false) []

/-- A session whose only data line fails to JSON-decode. -/
def c2demo : SessionResult :=
  HandleStreamingResponse gH "gemini" ([.dataBad "data: broken"], false) []

/-- A session with one Gemini frame whose text carries two bare done
tokens at the end. -/
def c3demo : SessionResult :=
  HandleStreamingResponse gH "gemini" ([.dataObj (geminiFrame "abc done done")], false) []

/-- Fifty one letters followed by a period: long enough for the length
gate and free of done tokens. -/
def c4text : String := "aaaaaaaaaaaaaaaaaaaaaaaaaaaaaaaaaaaaaaaaaaaaaaaaaaa."

/-- A Gemini session whose first attempt ends without a terminal signal
and whose second attempt ends on the [DONE] literal. -/
def c5demo : SessionResult :=
  HandleStreamingResponse gH "gemini" ([.dataObj (geminiFrame "a")], false)
    [([.dataDone], false)]

/-- A configuration with a retry budget of one, for exercising
exhaustion. -/
def limitConfig : StreamConfig :=
  { MaxRetries := 1, RetryDelay := 1,
    EnablePunctuationHeuristic := false, DoneTokenPatterns := ["[done]"] }

def limitH : StreamHandler := NewStreamHandler limitConfig

/-- A session that exhausts the retry budget of limitH: two attempts,
both ending without any completion signal. -/
def c7demo : SessionResult :=
  HandleStreamingResponse limitH "generic" ([], false) [([], false)]

/-- The all-zero, all-empty stream configuration. -/
def emptyConfig : StreamConfig :=
  { MaxRetries := 0, RetryDelay := 0,
    EnablePunctuationHeuristic := false, DoneTokenPatterns := [] }

/-- The single model-role entry of the resume-body example. -/
def modelOnlyEntry : Json :=
  .obj [("role", .str "model"), ("parts", .arr [.obj [("text", .str "x")]])]

/-- A snake_case instruction part used in the merge witness. -/
def snakePartW : Json := .obj [("text", .str "first snake part")]

/-- A camelCase instruction part used in the merge witness. -/
def camelPartW : Json := .obj [("text", .str "existing camel part")]

/-- The witness body: both spellings of the system instruction present. -/
def mergeBodyW : List (String × Json) :=
  [("system_instruction", .obj [("parts", .arr [snakePartW])]),
   ("systemInstruction", .obj [("parts", .arr [camelPartW])]),
   ("contents", .arr [])]

theorem jlookup_setKey_self (m : List (String × Json)) (k : String) (v : Json) :
    jlookup (setKey m k v) k = some v := by
  induction m with
  | nil => simp [setKey, jlookup]
  | cons p rest ih =>
    by_cases h : p.1 = k
    · simp [setKey, jlookup, h]
    · simp [setKey, jlookup, h, ih]

theorem jlookup_setKey_ne (m : List (String × Json)) (k k' : String) (v : Json)
    (h : k' ≠ k) : jlookup (setKey m k v) k' = jlookup m k' := by
  have h' : ¬ k = k' := fun hh => h hh.symm
  induction m with
  | nil => simp [setKey, jlookup, h']
  | cons p rest ih =>
    obtain ⟨k0, v0⟩ := p
    by_cases h1 : k0 = k
    · subst h1
      simp [setKey, jlookup, h']
    · by_cases h2 : k0 = k'
      · simp [setKey, jlookup, h1, h2, h]
      · simp [setKey, jlookup, h1, h2, ih]

theorem jlookup_eraseKey_self (m : List (String × Json)) (k : String) :
    jlookup (eraseKey m k) k = none := by
  induction m with
  | nil => simp [eraseKey, jlookup]
  | cons p rest ih =>
    obtain ⟨k0, v0⟩ := p
    by_cases h : k0 = k
    · simp [eraseKey, h, ih]
    · simp [eraseKey, jlookup, h, ih]

theorem jlookup_eraseKey_ne (m : List (String × Json)) (k k' : String)
    (h : k' ≠ k) : jlookup (eraseKey m k) k' = jlookup m k' := by
  have h' : ¬ k = k' := fun hh => h hh.symm
  induction m with
  | nil => simp [eraseKey]
  | cons p rest ih =>
    obtain ⟨k0, v0⟩ := p
    by_cases h1 : k0 = k
    · subst h1
      simp [eraseKey, jlookup, h', ih]
    · by_cases h2 : k0 = k'
      · simp [eraseKey, jlookup, h1, h2, h, ih]
      · simp [eraseKey, jlookup, h1, h2, ih]

theorem strConcat_append (a b : List String) :
    strConcat (a ++ b) = strConcat a ++ strConcat b := by
  induction a with
  | nil => simp [strConcat, String.empty_append]
  | cons s rest ih => simp [strConcat, ih, String.append_assoc]

/-- When the frame has extractable text, the in-place rewrite replaces
exactly that text. -/
theorem extractGeminiText_update (j : Json) (c : String)
    (h : extractGeminiText j ≠ "") :
    extractGeminiText (updateGeminiText j c) = c := by
  cases j with
  | obj o =>
    cases h1 : jlookup o "candidates" with
    | none => simp [extractGeminiText, h1] at h
    | some jv =>
      cases jv with
      | arr cands =>
        cases cands with
        | nil => simp [extractGeminiText, h1] at h
        | cons c0 cs =>
          cases c0 with
          | obj c0o =>
            cases h2 : jlookup c0o "content" with
            | none => simp [extractGeminiText, h1, h2] at h
            | some jc =>
              cases jc with
              | obj conto =>
                cases h3 : jlookup conto "parts" with
                | none => simp [extractGeminiText, h1, h2, h3] at h
                | some jp =>
                  cases jp with
                  | arr parts =>
                    cases parts with
                    | nil => simp [extractGeminiText, h1, h2, h3] at h
                    | cons p0 ps =>
                      cases p0 with
                      | obj p0o =>
                        simp [extractGeminiText, updateGeminiText, h1, h2, h3,
                          jlookup_setKey_self]
                      | null => simp [extractGeminiText, h1, h2, h3] at h
                      | bool b => simp [extractGeminiText, h1, h2, h3] at h
                      | num n => simp [extractGeminiText, h1, h2, h3] at h
                      | str s => simp [extractGeminiText, h1, h2, h3] at h
                      | arr a => simp [extractGeminiText, h1, h2, h3] at h
                  | null => simp [extractGeminiText, h1, h2, h3] at h
                  | bool b => simp [extractGeminiText, h1, h2, h3] at h
                  | num n => simp [extractGeminiText, h1, h2, h3] at h
                  | str s => simp [extractGeminiText, h1, h2, h3] at h
                  | obj oo => simp [extractGeminiText, h1, h2, h3] at h
              | null => simp [extractGeminiText, h1, h2] at h
              | bool b => simp [extractGeminiText, h1, h2] at h
              | num n => simp [extractGeminiText, h1, h2] at h
              | str s => simp [extractGeminiText, h1, h2] at h
              | arr a => simp [extractGeminiText, h1, h2] at h
          | null => simp [extractGeminiText, h1] at h
          | bool b => simp [extractGeminiText, h1] at h
          | num n => simp [extractGeminiText, h1] at h
          | str s => simp [extractGeminiText, h1] at h
          | arr a => simp [extractGeminiText, h1] at h
      | null => simp [extractGeminiText, h1] at h
      | bool b => simp [extractGeminiText, h1] at h
      | num n => simp [extractGeminiText, h1] at h
      | str s => simp [extractGeminiText, h1] at h
      | obj oo => simp [extractGeminiText, h1] at h
  | null => simp [extractGeminiText] at h
  | bool b => simp [extractGeminiText] at h
  | num n => simp [extractGeminiText] at h
  | str s => simp [extractGeminiText] at h
  | arr a => simp [extractGeminiText] at h

theorem removeDoneTokens_empty (patterns : List String) :
    RemoveDoneTokensFromText patterns "" = "" := by
  unfold RemoveDoneTokensFromText
  cases h : patterns.find? (fun p => goHasSuffix "" p) with
  | none => rfl
  | some p => simp [goDropRight, goTrimSpace]

/-- The text of the frame the Gemini rewriter forwards is exactly the
done-token stripped text of the incoming frame. -/
theorem extractGeminiText_removeDoneLine (sh : StreamHandler) (j : Json) :
    extractGeminiText (removeDoneLine sh j) =
      RemoveDoneTokensFromText sh.doneTokenPatterns (extractGeminiText j) := by
  unfold removeDoneLine
  by_cases h : extractGeminiText j = ""
  · simp [h, removeDoneTokens_empty]
  · by_cases h2 : RemoveDoneTokensFromText sh.doneTokenPatterns (extractGeminiText j) =
        extractGeminiText j
    · simp [h, h2]
    · simp [h, h2, extractGeminiText_update j _ h]

theorem stripIf_empty (sh : StreamHandler) (channelType : String) :
    stripIf sh channelType "" = "" := by
  unfold stripIf
  by_cases h : channelType = "gemini" <;> simp [h, removeDoneTokens_empty]

/-- The text of the frame actually forwarded for one incoming frame. -/
theorem extract_outFrame (sh : StreamHandler) (channelType : String) (d : Json) :
    extractTextFromData (if channelType = "gemini" then removeDoneLine sh d else d)
        channelType = stripIf sh channelType (extractTextFromData d channelType) := by
  by_cases hg : channelType = "gemini"
  · subst hg
    simp [extractTextFromData, stripIf, extractGeminiText_removeDoneLine]
  · simp [stripIf, hg]

theorem runLines_acc (sh : StreamHandler) (channelType : String) :
    ∀ (lines : List SSELine) (acc lastChunk : String),
      (runLines sh channelType lines acc lastChunk).acc =
        acc ++ strConcat (runLines sh channelType lines acc lastChunk).chunks := by
  intro lines
  induction lines with
  | nil => intro acc lastChunk; simp [runLines, strConcat]
  | cons l rest ih =>
    intro acc lastChunk
    cases l with
    | blank => simp [runLines, ih]
    | dataDone => simp [runLines, strConcat]
    | dataBad r => simp [runLines, ih]
    | other s => simp [runLines, strConcat, ih]
    | dataObj d =>
      by_cases h : extractTextFromData d channelType = ""
      · by_cases ht : isStreamComplete sh d channelType acc
        · simp [runLines, h, ht, strConcat]
        · simp [runLines, h, ht, ih]
      · by_cases ht : isStreamComplete sh d channelType
            (acc ++ extractTextFromData d channelType)
        · simp [runLines, h, ht, strConcat, String.append_assoc]
        · simp [runLines, h, ht, ih, strConcat, String.append_assoc]

theorem emittedText_nil (channelType : String) : emittedText channelType [] = "" := rfl

theorem emittedText_setHeaders (channelType : String) (es : List OutEvent) :
    emittedText channelType (.setHeaders :: es) = emittedText channelType es := by
  simp only [emittedText, List.map_cons, strConcat, String.empty_append]

theorem emittedText_writeRaw (channelType s : String) (es : List OutEvent) :
    emittedText channelType (.writeRaw s :: es) = emittedText channelType es := by
  simp only [emittedText, List.map_cons, strConcat, String.empty_append]

theorem emittedText_writeStatus (channelType : String) (n : Nat) (c : String) (b : Json)
    (es : List OutEvent) :
    emittedText channelType (.writeStatus n c b :: es) = emittedText channelType es := by
  simp only [emittedText, List.map_cons, strConcat, String.empty_append]

theorem emittedText_writeData (channelType : String) (j : Json) (es : List OutEvent) :
    emittedText channelType (.writeData j :: es) =
      extractTextFromData j channelType ++ emittedText channelType es := rfl

theorem emittedText_append (channelType : String) (a b : List OutEvent) :
    emittedText channelType (a ++ b) =
      emittedText channelType a ++ emittedText channelType b := by
  simp only [emittedText, List.map_append, strConcat_append]

theorem runLines_emitted (sh : StreamHandler) (channelType : String) :
    ∀ (lines : List SSELine) (acc lastChunk : String),
      emittedText channelType (runLines sh channelType lines acc lastChunk).events =
        strConcat ((runLines sh channelType lines acc lastChunk).chunks.map
          (stripIf sh channelType)) := by
  intro lines
  induction lines with
  | nil => intro acc lastChunk; simp [runLines, emittedText_nil, strConcat]
  | cons l rest ih =>
    intro acc lastChunk
    cases l with
    | blank => simp [runLines, ih]
    | dataDone => simp [runLines, emittedText_nil, strConcat]
    | dataBad r => simp [runLines, ih]
    | other s => simp [runLines, emittedText_writeRaw, ih]
    | dataObj d =>
      by_cases h : extractTextFromData d channelType = ""
      · by_cases ht : isStreamComplete sh d channelType acc
        · simp [runLines, h, ht, emittedText_writeData, emittedText_nil, strConcat,
            extract_outFrame, stripIf_empty]
        · simp [runLines, h, ht, emittedText_writeData, extract_outFrame,
            stripIf_empty, ih, String.empty_append]
      · by_cases ht : isStreamComplete sh d channelType
            (acc ++ extractTextFromData d channelType)
        · simp [runLines, h, ht, emittedText_writeData, emittedText_nil, strConcat,
            extract_outFrame]
        · simp [runLines, h, ht, emittedText_writeData, extract_outFrame, ih, strConcat]

theorem runLines_noHeaders (sh : StreamHandler) (channelType : String) :
    ∀ (lines : List SSELine) (acc lastChunk : String),
      (runLines sh channelType lines acc lastChunk).events.countP isSetHeadersB = 0 := by
  intro lines
  induction lines with
  | nil => intro acc lastChunk; simp [runLines]
  | cons l rest ih =>
    intro acc lastChunk
    cases l with
    | blank => simp [runLines, ih]
    | dataDone => simp [runLines]
    | dataBad r => simp [runLines, ih]
    | other s => simp [runLines, List.countP_cons, isSetHeadersB, ih]
    | dataObj d =>
      by_cases h : extractTextFromData d channelType = ""
      · by_cases ht : isStreamComplete sh d channelType acc
        · simp [runLines, h, ht, List.countP_cons, isSetHeadersB]
        · simp [runLines, h, ht, List.countP_cons, isSetHeadersB, ih]
      · by_cases ht : isStreamComplete sh d channelType
            (acc ++ extractTextFromData d channelType)
        · simp [runLines, h, ht, List.countP_cons, isSetHeadersB]
        · simp [runLines, h, ht, List.countP_cons, isSetHeadersB, ih]

theorem runLines_writeData_mem (sh : StreamHandler) (channelType : String) :
    ∀ (lines : List SSELine) (acc lastChunk : String) (j : Json),
      OutEvent.writeData j ∈ (runLines sh channelType lines acc lastChunk).events →
      ∃ d, SSELine.dataObj d ∈ lines ∧
        j = (if channelType = "gemini" then removeDoneLine sh d else d) := by
  intro lines
  induction lines with
  | nil => intro acc lastChunk j h; simp [runLines] at h
  | cons l rest ih =>
    intro acc lastChunk j h
    cases l with
    | blank =>
      obtain ⟨d, hd, hj⟩ := ih acc lastChunk j (by simpa [runLines] using h)
      exact ⟨d, List.mem_cons_of_mem _ hd, hj⟩
    | dataDone => simp [runLines] at h
    | dataBad r =>
      obtain ⟨d, hd, hj⟩ := ih acc lastChunk j (by simpa [runLines] using h)
      exact ⟨d, List.mem_cons_of_mem _ hd, hj⟩
    | other s =>
      simp only [runLines, List.mem_cons] at h
      rcases h with h | h
      · simp at h
      · obtain ⟨d, hd, hj⟩ := ih acc lastChunk j h
        exact ⟨d, List.mem_cons_of_mem _ hd, hj⟩
    | dataObj d =>
      by_cases hx : extractTextFromData d channelType = ""
      · by_cases ht : isStreamComplete sh d channelType acc
        · simp [runLines, hx, ht] at h
          exact ⟨d, List.mem_cons_self _ _, h⟩
        · simp [runLines, hx, ht, List.mem_cons] at h
          rcases h with h | h
          · exact ⟨d, List.mem_cons_self _ _, h⟩
          · obtain ⟨d', hd', hj'⟩ := ih _ _ j h
            exact ⟨d', List.mem_cons_of_mem _ hd', hj'⟩
      · by_cases ht : isStreamComplete sh d channelType
            (acc ++ extractTextFromData d channelType)
        · simp [runLines, hx, ht] at h
          exact ⟨d, List.mem_cons_self _ _, h⟩
        · simp [runLines, hx, ht, List.mem_cons] at h
          rcases h with h | h
          · exact ⟨d, List.mem_cons_self _ _, h⟩
          · obtain ⟨d', hd', hj'⟩ := ih _ _ j h
            exact ⟨d', List.mem_cons_of_mem _ hd', hj'⟩

theorem sessionLoop_writeData_mem (sh : StreamHandler) (channelType : String) :
    ∀ (rest : List (List SSELine × Bool)) (cur : List SSELine × Bool)
      (acc : String) (streak count : Nat) (j : Json),
      OutEvent.writeData j ∈ (sessionLoop sh channelType rest cur acc streak count).events →
      ∃ d, (SSELine.dataObj d ∈ cur.1 ∨ ∃ s ∈ rest, SSELine.dataObj d ∈ s.1) ∧
        j = (if channelType = "gemini" then removeDoneLine sh d else d) := by
  intro rest
  induction rest with
  | nil =>
    intro cur acc streak count j h
    simp only [sessionLoop] at h
    split_ifs at h
    · simp only [processStreamAttempt, List.mem_cons] at h
      rcases h with h | h
      · simp at h
      · obtain ⟨d, hd, hj⟩ := runLines_writeData_mem sh channelType cur.1 acc "" j h
        exact ⟨d, Or.inl hd, hj⟩
    · simp only [processStreamAttempt, List.mem_append, List.mem_cons,
        List.mem_singleton] at h
      rcases h with (h | h) | h
      · simp at h
      · obtain ⟨d, hd, hj⟩ := runLines_writeData_mem sh channelType cur.1 acc "" j h
        exact ⟨d, Or.inl hd, hj⟩
      · simp at h
    · simp only [processStreamAttempt, List.mem_cons] at h
      rcases h with h | h
      · simp at h
      · obtain ⟨d, hd, hj⟩ := runLines_writeData_mem sh channelType cur.1 acc "" j h
        exact ⟨d, Or.inl hd, hj⟩
  | cons next rest' ih =>
    intro cur acc streak count j h
    simp only [sessionLoop] at h
    split_ifs at h
    · simp only [processStreamAttempt, List.mem_cons] at h
      rcases h with h | h
      · simp at h
      · obtain ⟨d, hd, hj⟩ := runLines_writeData_mem sh channelType cur.1 acc "" j h
        exact ⟨d, Or.inl hd, hj⟩
    · simp only [processStreamAttempt, List.mem_append, List.mem_cons,
        List.mem_singleton] at h
      rcases h with (h | h) | h
      · simp at h
      · obtain ⟨d, hd, hj⟩ := runLines_writeData_mem sh channelType cur.1 acc "" j h
        exact ⟨d, Or.inl hd, hj⟩
      · simp at h
    · simp only [processStreamAttempt, List.mem_append, List.mem_cons] at h
      rcases h with (h | h) | h
      · simp at h
      · obtain ⟨d, hd, hj⟩ := runLines_writeData_mem sh channelType cur.1 acc "" j h
        exact ⟨d, Or.inl hd, hj⟩
      · obtain ⟨d, hd, hj⟩ := ih next _ _ (count + 1) j h
        rcases hd with hd | ⟨s, hs, hd⟩
        · exact ⟨d, Or.inr ⟨next, List.mem_cons_self _ _, hd⟩, hj⟩
        · exact ⟨d, Or.inr ⟨s, List.mem_cons_of_mem _ hs, hd⟩, hj⟩

theorem sessionLoop_acc (sh : StreamHandler) (channelType : String) :
    ∀ (rest : List (List SSELine × Bool)) (cur : List SSELine × Bool)
      (acc : String) (streak count : Nat),
      (sessionLoop sh channelType rest cur acc streak count).acc =
        acc ++ strConcat (sessionLoop sh channelType rest cur acc streak count).chunks := by
  intro rest
  induction rest with
  | nil =>
    intro cur acc streak count
    simp only [sessionLoop]
    split_ifs <;> simp [processStreamAttempt, runLines_acc]
  | cons next rest' ih =>
    intro cur acc streak count
    simp only [sessionLoop]
    split_ifs <;>
      simp [processStreamAttempt, runLines_acc, ih, strConcat_append, String.append_assoc]

theorem sessionLoop_emitted (sh : StreamHandler) (channelType : String) :
    ∀ (rest : List (List SSELine × Bool)) (cur : List SSELine × Bool)
      (acc : String) (streak count : Nat),
      emittedText channelType (sessionLoop sh channelType rest cur acc streak count).events =
        strConcat ((sessionLoop sh channelType rest cur acc streak count).chunks.map
          (stripIf sh channelType)) := by
  intro rest
  induction rest with
  | nil =>
    intro cur acc streak count
    simp only [sessionLoop]
    split_ifs <;>
      simp [processStreamAttempt, emittedText_append, emittedText_setHeaders,
        emittedText_writeStatus, emittedText_nil, runLines_emitted]
  | cons next rest' ih =>
    intro cur acc streak count
    simp only [sessionLoop]
    split_ifs <;>
      simp [processStreamAttempt, emittedText_append, emittedText_setHeaders,
        emittedText_writeStatus, emittedText_nil, runLines_emitted, ih, strConcat_append]

theorem sessionLoop_headers (sh : StreamHandler) (channelType : String) :
    ∀ (rest : List (List SSELine × Bool)) (cur : List SSELine × Bool)
      (acc : String) (streak count : Nat),
      (sessionLoop sh channelType rest cur acc streak count).events.countP isSetHeadersB =
        (sessionLoop sh channelType rest cur acc streak count).attempts := by
  intro rest
  induction rest with
  | nil =>
    intro cur acc streak count
    simp only [sessionLoop]
    split_ifs <;>
      simp [processStreamAttempt, List.countP_cons, List.countP_append, isSetHeadersB,
        runLines_noHeaders]
  | cons next rest' ih =>
    intro cur acc streak count
    simp only [sessionLoop]
    split_ifs <;>
      simp [processStreamAttempt, List.countP_cons, List.countP_append, isSetHeadersB,
        runLines_noHeaders, ih] <;> omega

theorem sessionLoop_head (sh : StreamHandler) (channelType : String) :
    ∀ (rest : List (List SSELine × Bool)) (cur : List SSELine × Bool)
      (acc : String) (streak count : Nat),
      (sessionLoop sh channelType rest cur acc streak count).events.head? =
        some .setHeaders := by
  intro rest
  induction rest with
  | nil =>
    intro cur acc streak count
    simp only [sessionLoop]
    split_ifs <;> simp [processStreamAttempt]
  | cons next rest' ih =>
    intro cur acc streak count
    simp only [sessionLoop]
    split_ifs <;> simp [processStreamAttempt]

theorem sessionLoop_counts (sh : StreamHandler) (channelType : String) :
    ∀ (rest : List (List SSELine × Bool)) (cur : List SSELine × Bool)
      (acc : String) (streak count : Nat),
      (sessionLoop sh channelType rest cur acc streak count).counts =
        List.range' count (sessionLoop sh channelType rest cur acc streak count).attempts := by
  intro rest
  induction rest with
  | nil =>
    intro cur acc streak count
    simp only [sessionLoop]
    split_ifs <;> simp [List.range'_succ]
  | cons next rest' ih =>
    intro cur acc streak count
    simp only [sessionLoop]
    split_ifs with h1 h2
    · simp [List.range'_succ]
    · simp [List.range'_succ]
    · simp [ih]
      rw [Nat.add_comm 1 _, List.range'_succ]

theorem sessionLoop_attempts_le (sh : StreamHandler) (channelType : String) :
    ∀ (rest : List (List SSELine × Bool)) (cur : List SSELine × Bool)
      (acc : String) (streak count : Nat),
      (count : Int) ≤ sh.maxRetries →
      ((sessionLoop sh channelType rest cur acc streak count).attempts : Int) + count ≤
        sh.maxRetries + 1 := by
  intro rest
  induction rest with
  | nil =>
    intro cur acc streak count h
    simp only [sessionLoop]
    split_ifs <;> simp <;> omega
  | cons next rest' ih =>
    intro cur acc streak count h
    simp only [sessionLoop]
    split_ifs with h1 h2
    · simp; omega
    · simp; omega
    · have h3 : ((count + 1 : Nat) : Int) ≤ sh.maxRetries := by push_cast; omega
      have := ih next
        (processStreamAttempt sh channelType cur.1 cur.2 acc streak count).acc
        (processStreamAttempt sh channelType cur.1 cur.2 acc streak count).streak
        (count + 1) h3
      simp only []
      push_cast at this ⊢
      omega

theorem sessionLoop_limit_event (sh : StreamHandler) (channelType : String) :
    ∀ (rest : List (List SSELine × Bool)) (cur : List SSELine × Bool)
      (acc : String) (streak count : Nat),
      (sessionLoop sh channelType rest cur acc streak count).outcome = .retryLimitExceeded →
      (sessionLoop sh channelType rest cur acc streak count).events.getLast? =
        some (.writeStatus 504 "application/json" (retryErrorBody sh.maxRetries)) := by
  intro rest
  induction rest with
  | nil =>
    intro cur acc streak count h
    simp only [sessionLoop] at h ⊢
    split_ifs at h ⊢ <;> simp_all
  | cons next rest' ih =>
    intro cur acc streak count h
    simp only [sessionLoop] at h ⊢
    split_ifs at h ⊢ with h1 h2
    · simp only []
      exact List.getLast?_concat _
    · have h' : (sessionLoop sh channelType rest' next
          (processStreamAttempt sh channelType cur.1 cur.2 acc streak count).acc
          (processStreamAttempt sh channelType cur.1 cur.2 acc streak count).streak
          (count + 1)).outcome = .retryLimitExceeded := by simpa using h
      have hlast := ih next
        (processStreamAttempt sh channelType cur.1 cur.2 acc streak count).acc
        (processStreamAttempt sh channelType cur.1 cur.2 acc streak count).streak
        (count + 1) h'
      have hne : (sessionLoop sh channelType rest' next
          (processStreamAttempt sh channelType cur.1 cur.2 acc streak count).acc
          (processStreamAttempt sh channelType cur.1 cur.2 acc streak count).streak
          (count + 1)).events ≠ [] := by
        intro hnil
        rw [hnil] at hlast
        simp at hlast
      simp only []
      rw [List.getLast?_append_of_ne_nil _ hne]
      exact hlast

/-- Claim C1, counterexample: in a Gemini session whose frame text ends
in a done token, the final accumulatedText keeps the token while the
concatenation of the text chunks emitted to the client has it stripped,
so the two differ. -/
theorem accumulatedText_counterexample :
    c1demo.acc = "hi [done]" ∧ emittedText "gemini" c1demo.events = "hi" := by
  constructor <;> decide

/-- Claim C1, amended: at session end accumulatedText equals the
concatenation of the text chunks extracted from upstream frames before
done-token stripping, while the text emitted to the client is the
concatenation of those same chunks after the Gemini stripping transform;
for non-Gemini channels the two coincide, for Gemini they differ by the
stripped tokens. -/
theorem accumulatedText_spec (sh : StreamHandler) (channelType : String)
    (first : List SSELine × Bool) (rest : List (List SSELine × Bool)) :
    (HandleStreamingResponse sh channelType first rest).acc =
      strConcat (HandleStreamingResponse sh channelType first rest).chunks ∧
    emittedText channelType (HandleStreamingResponse sh channelType first rest).events =
      strConcat ((HandleStreamingResponse sh channelType first rest).chunks.map
        (stripIf sh channelType)) := by
  constructor
  · have h := sessionLoop_acc sh channelType rest first "" 0 0
    simpa [HandleStreamingResponse, String.empty_append] using h
  · exact sessionLoop_emitted sh channelType rest first "" 0 0

/-- Claim C2, counterexample: a session whose only data line fails to
JSON-decode produces no write event at all, so the malformed line is not
forwarded to the client. -/
theorem malformed_line_counterexample : c2demo.events = [.setHeaders] := by rfl

/-- Claim C2, amended: a data line whose payload fails to JSON-decode is
skipped entirely by the scan loop: no text extraction, no completion
check, and no forwarding; processing continues with the remaining lines
as if the malformed line were absent. -/
theorem malformed_line_skipped (sh : StreamHandler) (channelType raw : String)
    (rest : List SSELine) (acc lastChunk : String) :
    runLines sh channelType (.dataBad raw :: rest) acc lastChunk =
      runLines sh channelType rest acc lastChunk := by rfl

/-- Claim C3, counterexample: the Gemini frame with text abc done done is
forwarded with text abc done, which still ends with the configured done
token done, so a forwarded frame text can end with a done token. -/
theorem gemini_done_suffix_counterexample :
    frameTexts c3demo.events = ["abc done"] ∧
    goHasSuffix "abc done" "done" = true ∧
    "done" ∈ gH.doneTokenPatterns := by
  refine ⟨by decide, by decide, by decide⟩

/-- Claim C3, amended: every Gemini data frame forwarded during a session
comes from one of the session's own upstream frames, equals the stripper
applied to that frame, and carries exactly RemoveDoneTokensFromText of
that frame's own text, which removes one trailing done-token occurrence
and trims surrounding whitespace, so the result can itself still end in
a done token; and the raw unstripped text still counts as a completion
signal internally: a frame whose raw text makes the accumulated text
contain a configured pattern ends the attempt cleanly right there, while
only the stripped frame is forwarded. -/
theorem gemini_forwarded_text_stripped (sh : StreamHandler)
    (first : List SSELine × Bool) (rest : List (List SSELine × Bool)) :
    (∀ j, OutEvent.writeData j ∈ (HandleStreamingResponse sh "gemini" first rest).events →
      ∃ d, (SSELine.dataObj d ∈ first.1 ∨ ∃ s ∈ rest, SSELine.dataObj d ∈ s.1) ∧
        j = removeDoneLine sh d ∧
        extractGeminiText j =
          RemoveDoneTokensFromText sh.doneTokenPatterns (extractGeminiText d)) ∧
    (∀ (d : Json) (lines : List SSELine) (acc lastChunk : String),
      sh.doneTokenPatterns.any
          (fun p => goContains (acc ++ extractGeminiText d) p) = true →
      (runLines sh "gemini" (.dataObj d :: lines) acc lastChunk).earlyExit = true ∧
      (runLines sh "gemini" (.dataObj d :: lines) acc lastChunk).events =
        [.writeData (removeDoneLine sh d)]) := by
  constructor
  · intro j hmem
    obtain ⟨d, hline, hj⟩ := sessionLoop_writeData_mem sh "gemini" rest first "" 0 0 j hmem
    have hj' : j = removeDoneLine sh d := by simpa using hj
    subst hj'
    exact ⟨d, hline, rfl, extractGeminiText_removeDoneLine sh d⟩
  · intro d lines acc lastChunk hany
    by_cases hx : extractTextFromData d "gemini" = ""
    · have hx' : extractGeminiText d = "" := by simpa [extractTextFromData] using hx
      rw [hx', String.append_empty] at hany
      constructor <;>
        simp [runLines, hx, isStreamComplete, isGeminiComplete, hany]
    · have hx' : acc ++ extractTextFromData d "gemini" = acc ++ extractGeminiText d := by
        simp [extractTextFromData]
      constructor <;>
        simp [runLines, hx, isStreamComplete, isGeminiComplete, hx', hany]

/-- Claim C3 witness: the amended theorem applied to concrete sessions:
the counterexample frame is bound to its own upstream frame, and a frame
whose raw text carries a done token ends its attempt cleanly. -/
theorem gemini_forwarded_text_stripped_witness :
    (∃ d, (SSELine.dataObj d ∈ ([.dataObj (geminiFrame "abc done done")] : List SSELine) ∨
        ∃ s ∈ ([] : List (List SSELine × Bool)), SSELine.dataObj d ∈ s.1) ∧
      removeDoneLine gH (geminiFrame "abc done done") = removeDoneLine gH d ∧
      extractGeminiText (removeDoneLine gH (geminiFrame "abc done done")) =
        RemoveDoneTokensFromText gH.doneTokenPatterns (extractGeminiText d)) ∧
    ((runLines gH "gemini" [.dataObj (geminiFrame "hi [done]")] "" "").earlyExit = true ∧
     (runLines gH "gemini" [.dataObj (geminiFrame "hi [done]")] "" "").events =
       [.writeData (removeDoneLine gH (geminiFrame "hi [done]"))]) :=
  ⟨(gemini_forwarded_text_stripped gH
      ([.dataObj (geminiFrame "abc done done")], false) []).1
      (removeDoneLine gH (geminiFrame "abc done done"))
      (List.mem_cons_of_mem _ (List.mem_cons_self _ _)),
   (gemini_forwarded_text_stripped gH
      ([.dataObj (geminiFrame "abc done done")], false) []).2
      (geminiFrame "hi [done]") [] "" "" (by decide)⟩

theorem endsWithSentencePunctuation_empty : endsWithSentencePunctuation "" = false := by
  decide

theorem pairwise_le_range' (n : Nat) : ∀ s : Nat, List.Pairwise (· ≤ ·) (List.range' s n) := by
  induction n with
  | zero => intro s; simp
  | succ n ih =>
    intro s
    rw [List.range'_succ]
    constructor
    · intro m hm
      have := (List.mem_range'_1.mp hm).1
      omega
    · exact ih (s + 1)

/-- Claim C4, counterexample: for the Gemini dialect isContentComplete
also returns true on a long punctuation-ended text containing no done
token, because the Gemini branch falls through to the generic check, so
the done-token substring condition is not an exact characterization. -/
theorem isContentComplete_counterexample :
    isContentComplete gH c4text "gemini" = true ∧
    gH.doneTokenPatterns.all (fun p => !(goContains c4text p)) = true := by
  constructor <;> decide

/-- Claim C4, amended: for a non-Gemini dialect isContentComplete holds
exactly when the text ends with sentence punctuation and its byte length
exceeds 50; for the Gemini dialect it holds exactly when the text is
nonempty and contains a configured done-token substring, or the generic
punctuation and length condition holds; in particular the generic check
on the text abcd is false. -/
theorem isContentComplete_spec (sh : StreamHandler) (text channelType : String) :
    (channelType ≠ "gemini" →
      (isContentComplete sh text channelType = true ↔
        endsWithSentencePunctuation text = true ∧ goByteLen text > 50)) ∧
    (channelType = "gemini" →
      (isContentComplete sh text channelType = true ↔
        ((text ≠ "" ∧ sh.doneTokenPatterns.any (fun p => goContains text p) = true) ∨
         (endsWithSentencePunctuation text = true ∧ goByteLen text > 50)))) := by
  constructor
  · intro hct
    by_cases htext : text = ""
    · subst htext
      simp [isContentComplete, endsWithSentencePunctuation_empty]
    · simp [isContentComplete, htext, hct]
  · intro hct
    subst hct
    by_cases htext : text = ""
    · subst htext
      simp [isContentComplete, endsWithSentencePunctuation_empty]
    · by_cases hany : sh.doneTokenPatterns.any (fun p => goContains text p) = true
      · simp [isContentComplete, htext, hany]
      · simp [isContentComplete, htext, hany]

/-- Claim C4 witness: the amended theorem instantiated at the generic
dialect on the text abcd yields false, the length gate example. -/
theorem isContentComplete_spec_witness : isContentComplete gH "abcd" "generic" = false := by
  have h := (isContentComplete_spec gH "abcd" "generic").1 (by decide)
  have h2 : ¬ (endsWithSentencePunctuation "abcd" = true ∧ goByteLen "abcd" > 50) := by
    decide
  cases hb : isContentComplete gH "abcd" "generic"
  · rfl
  · exact absurd (h.mp hb) h2

/-- Claim C5, counterexample: a Gemini session that retries once performs
two header-setting actions, one per attempt, with a body write in
between, so the SSE headers are not set exactly once per session. -/
theorem sse_headers_counterexample :
    c5demo.events = [.setHeaders, .writeData (geminiFrame "a"), .setHeaders] ∧
    c5demo.attempts = 2 := by
  constructor <;> rfl

/-- Claim C5, amended: the SSE headers are set at the start of every
stream attempt, hence before the first body byte of the session, and the
number of header-setting actions equals the number of attempts performed
rather than one. -/
theorem sse_headers_per_attempt (sh : StreamHandler) (channelType : String)
    (first : List SSELine × Bool) (rest : List (List SSELine × Bool)) :
    (HandleStreamingResponse sh channelType first rest).events.head? =
      some .setHeaders ∧
    (HandleStreamingResponse sh channelType first rest).events.countP isSetHeadersB =
      (HandleStreamingResponse sh channelType first rest).attempts :=
  ⟨sessionLoop_head sh channelType rest first "" 0 0,
   sessionLoop_headers sh channelType rest first "" 0 0⟩

/-- Claim C6: with a nonnegative retry budget, the controller performs at
most maxRetries plus one attempts; the consecutive retry counts passed to
successive attempts are monotonically non-decreasing and never exceed
maxRetries. -/
theorem retry_bound_and_monotone (sh : StreamHandler) (channelType : String)
    (first : List SSELine × Bool) (rest : List (List SSELine × Bool))
    (h : 0 ≤ sh.maxRetries) :
    (HandleStreamingResponse sh channelType first rest).attempts ≤
      sh.maxRetries.toNat + 1 ∧
    List.Pairwise (· ≤ ·) (HandleStreamingResponse sh channelType first rest).counts ∧
    ∀ c ∈ (HandleStreamingResponse sh channelType first rest).counts,
      (c : Int) ≤ sh.maxRetries := by
  simp only [HandleStreamingResponse]
  have hb := sessionLoop_attempts_le sh channelType rest first "" 0 0 (by exact_mod_cast h)
  have hc := sessionLoop_counts sh channelType rest first "" 0 0
  refine ⟨by omega, ?_, ?_⟩
  · rw [hc]
    exact pairwise_le_range' _ 0
  · intro c hcmem
    rw [hc] at hcmem
    have := List.mem_range'_1.mp hcmem
    omega

/-- Claim C6 witness: the bound applied to a concrete one-attempt session
of the factory-built Gemini handler. -/
theorem retry_bound_witness :
    (HandleStreamingResponse gH "gemini" ([SSELine.dataDone], false) []).attempts ≤
      gH.maxRetries.toNat + 1 ∧
    List.Pairwise (· ≤ ·)
      (HandleStreamingResponse gH "gemini" ([SSELine.dataDone], false) []).counts ∧
    ∀ c ∈ (HandleStreamingResponse gH "gemini" ([SSELine.dataDone], false) []).counts,
      (c : Int) ≤ gH.maxRetries :=
  retry_bound_and_monotone gH "gemini" ([SSELine.dataDone], false) [] (by decide)

/-- Claim C7: when a session ends with the retry budget exhausted, the
last downstream action is an HTTP 504 response with content type
application/json whose body is the DEADLINE_EXCEEDED envelope
interpolating maxRetries, and the controller reports the retry limit
exceeded outcome. -/
theorem retry_limit_error_response (sh : StreamHandler) (channelType : String)
    (first : List SSELine × Bool) (rest : List (List SSELine × Bool))
    (h : (HandleStreamingResponse sh channelType first rest).outcome =
      .retryLimitExceeded) :
    (HandleStreamingResponse sh channelType first rest).events.getLast? =
      some (.writeStatus 504 "application/json" (.obj [("error", .obj [
        ("code", .num 504),
        ("status", .str "DEADLINE_EXCEEDED"),
        ("message", .str ("Retry limit (" ++ toString sh.maxRetries ++
          ") exceeded after stream interruption"))])])) := by
  have hl := sessionLoop_limit_event sh channelType rest first "" 0 0 h
  simpa [retryErrorBody] using hl

/-- Claim C7 witness: a handler with budget one exhausted by two empty
attempts writes the 504 envelope naming that budget. -/
theorem retry_limit_error_witness :
    c7demo.events.getLast? =
      some (.writeStatus 504 "application/json" (.obj [("error", .obj [
        ("code", .num 504),
        ("status", .str "DEADLINE_EXCEEDED"),
        ("message", .str "Retry limit (1) exceeded after stream interruption")])])) :=
  retry_limit_error_response limitH "generic" ([], false) [([], false)] rfl

/-- Claim C10: every constructed handler has a positive retry budget, a
positive retry delay and a nonempty done-token pattern list; non-positive
or empty configuration fields are replaced by 3, one second and the four
default patterns; in particular the openai and anthropic factory
configurations, which specify empty pattern lists, yield handlers
carrying the full default done-token pattern list. -/
theorem stream_config_defaults (config : StreamConfig) :
    0 < (NewStreamHandler config).maxRetries ∧
    0 < (NewStreamHandler config).retryDelay ∧
    (NewStreamHandler config).doneTokenPatterns ≠ [] ∧
    (config.MaxRetries ≤ 0 → (NewStreamHandler config).maxRetries = 3) ∧
    (config.RetryDelay ≤ 0 → (NewStreamHandler config).retryDelay = oneSecondNs) ∧
    (config.DoneTokenPatterns = [] →
      (NewStreamHandler config).doneTokenPatterns = defaultDoneTokenPatterns) ∧
    (NewStreamHandler (createProcessorConfig "openai")).doneTokenPatterns =
      defaultDoneTokenPatterns ∧
    (NewStreamHandler (createProcessorConfig "anthropic")).doneTokenPatterns =
      defaultDoneTokenPatterns := by
  refine ⟨?_, ?_, ?_, ?_, ?_, ?_, by rfl, by rfl⟩
  · by_cases h : config.MaxRetries ≤ 0 <;> simp [NewStreamHandler, h] <;> omega
  · by_cases h : config.RetryDelay ≤ 0 <;> simp [NewStreamHandler, h, oneSecondNs] <;> omega
  · by_cases h : config.DoneTokenPatterns = [] <;>
      simp [NewStreamHandler, h, defaultDoneTokenPatterns]
  · intro h; simp [NewStreamHandler, h]
  · intro h; simp [NewStreamHandler, h]
  · intro h; simp [NewStreamHandler, h]

/-- Claim C10 witness: the defaults applied to the all-empty
configuration. -/
theorem stream_config_defaults_witness :
    (NewStreamHandler emptyConfig).maxRetries = 3 ∧
    (NewStreamHandler emptyConfig).retryDelay = oneSecondNs ∧
    (NewStreamHandler emptyConfig).doneTokenPatterns = defaultDoneTokenPatterns := by
  have h := stream_config_defaults emptyConfig
  exact ⟨h.2.2.2.1 (by decide), h.2.2.2.2.1 (by decide), h.2.2.2.2.2.1 rfl⟩

theorem lastUserIdx_none_iff (xs : List Json) :
    lastUserIdx xs = none ↔ ∀ u ∈ xs, isUserEntry u = false := by
  induction xs with
  | nil => simp [lastUserIdx]
  | cons x rest ih =>
    simp only [lastUserIdx]
    cases h : lastUserIdx rest with
    | some j =>
      simp only []
      constructor
      · intro hc; exact absurd hc (by simp)
      · intro hall
        have : lastUserIdx rest = none :=
          ih.mpr (fun u hu => hall u (List.mem_cons_of_mem _ hu))
        rw [this] at h
        exact absurd h (by simp)
    | none =>
      by_cases hx : isUserEntry x
      · simp [hx, ih.mp h]
      · simp only [hx, if_false]
        simp only [List.mem_cons, forall_eq_or_imp]
        constructor
        · intro _
          exact ⟨by simpa using hx, ih.mp h⟩
        · intro _; rfl

theorem lastUserIdx_some_of (xs : List Json) : ∀ (i : Nat) (u : Json),
    xs.get? i = some u → isUserEntry u = true →
    (∀ k v, i < k → xs.get? k = some v → isUserEntry v = false) →
    lastUserIdx xs = some i := by
  induction xs with
  | nil => intro i u h _ _; simp at h
  | cons x rest ih =>
    intro i u hget huser hafter
    cases i with
    | zero =>
      have hx : x = u := by simpa using hget
      have hrest : lastUserIdx rest = none := by
        rw [lastUserIdx_none_iff]
        intro v hv
        obtain ⟨k, hk⟩ := List.mem_iff_get?.mp hv
        exact hafter (k + 1) v (Nat.succ_pos k) (by simpa using hk)
      subst hx
      simp [lastUserIdx, hrest, huser]
    | succ i' =>
      have hrest := ih i' u (by simpa using hget) huser
        (fun k v hk hkv => hafter (k + 1) v (by omega) (by simpa using hkv))
      simp [lastUserIdx, hrest]

/-- Claim C8: the Gemini resume-body builder locates the last user entry
of contents and inserts the model entry carrying the accumulated text and
the fixed continuation user entry immediately after it, preserving all
other entries in order; with no user entry both are appended at the end;
all other keys of the body are untouched. -/
theorem gemini_resume_body_insertion (body : List (String × Json))
    (accumulatedText : String) (xs : List Json)
    (h : jlookup body "contents" = some (.arr xs)) :
    (∀ i u, xs.get? i = some u → isUserEntry u = true →
        (∀ k v, i < k → xs.get? k = some v → isUserEntry v = false) →
        jlookup (addGeminiRetryContext body accumulatedText) "contents" =
          some (.arr (xs.take (i + 1) ++
            [geminiModelEntry accumulatedText, geminiContinueEntry] ++
            xs.drop (i + 1)))) ∧
    ((∀ u ∈ xs, isUserEntry u = false) →
        jlookup (addGeminiRetryContext body accumulatedText) "contents" =
          some (.arr (xs ++ [geminiModelEntry accumulatedText, geminiContinueEntry]))) ∧
    (∀ k, k ≠ "contents" →
        jlookup (addGeminiRetryContext body accumulatedText) k = jlookup body k) := by
  refine ⟨?_, ?_, ?_⟩
  · intro i u h1 h2 h3
    have hidx := lastUserIdx_some_of xs i u h1 h2 h3
    simp [addGeminiRetryContext, h, hidx, jlookup_setKey_self]
  · intro hnone
    have hidx := (lastUserIdx_none_iff xs).mpr hnone
    simp [addGeminiRetryContext, h, hidx, jlookup_setKey_self]
  · intro k hk
    unfold addGeminiRetryContext
    rw [h]
    cases h2 : lastUserIdx xs <;> simp [h2, jlookup_setKey_ne _ _ _ _ hk]

/-- Claim C8 witness: the builder applied to a contents holding one model
entry and accumulated text y appends the model and continuation entries,
yielding the three-entry contents of the specification example. -/
theorem gemini_resume_body_witness :
    jlookup (addGeminiRetryContext [("contents", .arr [modelOnlyEntry])] "y") "contents" =
      some (.arr [modelOnlyEntry, geminiModelEntry "y", geminiContinueEntry]) :=
  (gemini_resume_body_insertion [("contents", .arr [modelOnlyEntry])] "y"
    [modelOnlyEntry] rfl).2.1 (by decide)

theorem snakeMergedParts_eq (snakeVal : Json) (cp : List Json) :
    snakeMergedParts snakeVal cp = partsOf snakeVal ++ cp := by
  cases snakeVal with
  | obj o =>
    cases hp : jlookup o "parts" with
    | none => simp [snakeMergedParts, partsOf, hp]
    | some pv => cases pv <;> simp [snakeMergedParts, partsOf, hp]
  | null => simp [snakeMergedParts, partsOf]
  | bool b => simp [snakeMergedParts, partsOf]
  | num n => simp [snakeMergedParts, partsOf]
  | str s => simp [snakeMergedParts, partsOf]
  | arr a => simp [snakeMergedParts, partsOf]

theorem partsOfMap_camelMapOf (body : List (String × Json)) :
    partsOfMap (camelMapOf body) = camelPartsOf body := by
  cases hv : jlookup body "systemInstruction" with
  | none => simp [camelMapOf, camelPartsOf, partsOfMap, hv, jlookup]
  | some v =>
    cases v <;> simp [camelMapOf, camelPartsOf, partsOfMap, partsOf, hv, Json.asObj, jlookup]

/-- Claim C9: reshaping a Gemini body that carries a snake_case
system_instruction merges order-preservingly: the resulting
systemInstruction.parts is the snake_case parts in their original order,
then the original camelCase parts in their original order, then the
completion marker part, which is appended unconditionally and never
deduplicated; the snake_case key is deleted. -/
theorem inject_system_prompt_merge (body : List (String × Json)) (snakeVal : Json)
    (h : jlookup body "system_instruction" = some snakeVal) :
    jlookup (injectSystemPrompt body) "system_instruction" = none ∧
    ∃ m, jlookup (injectSystemPrompt body) "systemInstruction" = some (.obj m) ∧
      jlookup m "parts" =
        some (.arr (partsOf snakeVal ++ camelPartsOf body ++ [newSystemPromptPart])) := by
  have hmerge : mergeSnakeInstruction body =
      eraseKey
        (setKey body "systemInstruction"
          (.obj (setKey (camelMapOf body) "parts"
            (.arr (partsOf snakeVal ++ camelPartsOf body)))))
        "system_instruction" := by
    unfold mergeSnakeInstruction
    rw [h]
    show eraseKey
        (setKey body "systemInstruction"
          (.obj (setKey (camelMapOf body) "parts"
            (.arr (snakeMergedParts snakeVal (partsOfMap (camelMapOf body)))))))
        "system_instruction" = _
    rw [snakeMergedParts_eq, partsOfMap_camelMapOf]
  have e1 : jlookup (mergeSnakeInstruction body) "systemInstruction" =
      some (.obj (setKey (camelMapOf body) "parts"
        (.arr (partsOf snakeVal ++ camelPartsOf body)))) := by
    rw [hmerge, jlookup_eraseKey_ne _ _ _ (by decide), jlookup_setKey_self]
  have e2 : injectSystemPrompt body =
      setKey (mergeSnakeInstruction body) "systemInstruction"
        (.obj (setKey
          (setKey (camelMapOf body) "parts" (.arr (partsOf snakeVal ++ camelPartsOf body)))
          "parts"
          (.arr ((partsOf snakeVal ++ camelPartsOf body) ++ [newSystemPromptPart])))) := by
    unfold injectSystemPrompt appendMarkerInstruction
    rw [e1]
    simp only [jlookup_setKey_self]
  refine ⟨?_, ?_⟩
  · rw [e2, jlookup_setKey_ne _ _ _ _ (by decide), hmerge, jlookup_eraseKey_self]
  · refine ⟨_, by rw [e2, jlookup_setKey_self], ?_⟩
    rw [jlookup_setKey_self, List.append_assoc]

/-- Claim C9 witness: the merge theorem applied to a concrete body with
one snake_case part and one camelCase part. -/
theorem inject_system_prompt_witness :
    jlookup (injectSystemPrompt mergeBodyW) "system_instruction" = none ∧
    ∃ m, jlookup (injectSystemPrompt mergeBodyW) "systemInstruction" = some (.obj m) ∧
      jlookup m "parts" =
        some (.arr (partsOf (.obj [("parts", .arr [snakePartW])]) ++
          camelPartsOf mergeBodyW ++ [newSystemPromptPart])) :=
  inject_system_prompt_merge mergeBodyW (.obj [("parts", .arr [snakePartW])]) rfl

